import Mathlib

/-!
Verification of the DRM /proc diagnostic-report subsystem
(src/linux-core/drm_proc.c) against its natural-language specification.

The source file is shallowly embedded below.  Byte buffers are `List Char`
(`Bytes`), machine integers are `Nat`/`Int` (the quantities involved are
byte counts and small counters; no wraparound is reachable in the modelled
paths), and the externally supplied constants `DRM_PROC_LIMIT`, `PAGE_SIZE`
and `DRM_MAX_ORDER` (declared in a header that is not part of this file)
are ordinary parameters of the definitions.
-/

namespace DrmProc

/-- Byte strings as lists of characters. -/
abbrev Bytes := List Char

/-- printf-style right justification with spaces to width w (no truncation,
as in C when the rendered value is wider than the field). -/
def padLeft (w : Nat) (s : Bytes) : Bytes :=
  List.replicate (w - s.length) ' ' ++ s

/-- printf-style zero padding to width w, used for %0Nx conversions. -/
def padZero (w : Nat) (s : Bytes) : Bytes :=
  List.replicate (w - s.length) '0' ++ s

/-- Decimal rendering of a natural number (%d, %lu, %u with a nonnegative
value). -/
def natDec (n : Nat) : Bytes := (Nat.repr n).data

/-- Decimal rendering of a signed integer (%d). -/
def intDec (i : Int) : Bytes := (Int.repr i).data

/-- Lowercase hexadecimal rendering (%x, %lx). -/
def natHex (n : Nat) : Bytes := Nat.toDigits 16 n

/-- Result of one invocation of a read handler: the C return value
(the handler returns the signed count `len - offset` on the end-of-report
path), the value stored through the `eof` out-parameter, and the bytes the
caller actually obtains starting at `*start = &buf[offset]` (empty when the
count is not positive). -/
structure ReadResult where
  count : Int
  eofFlag : Bool
  bytes : Bytes
deriving DecidableEq

/-- The read tail shared by every handler in drm_proc.c (for example
drm_name_info, lines 178-198): short-circuit when the requested offset
exceeds the per-report limit, otherwise regenerate the whole body `content`
and either hand back `request` bytes at `offset` signalling more remains,
or hand back `len - offset` and signal end of report. -/
def proc_read (limit : Nat) (content : Bytes) (offset request : Nat) : ReadResult :=
  if offset > limit then
    ⟨0, true, []⟩
  else if content.length > request + offset then
    ⟨(request : Int), false, (content.drop offset).take request⟩
  else
    ⟨(content.length : Int) - (offset : Int), true,
      (content.drop offset).take (content.length - offset)⟩

/-- Device identity fields read by drm_name_info: driver name, pci bus
name, and the optional unique string. -/
structure DrmNameState where
  driverName : Bytes
  pciName : Bytes
  unique : Option Bytes
deriving DecidableEq

/-- Body built by drm_name_info (lines 186-193): "%s %s %s\n" when
dev->unique is set, "%s %s\n" otherwise. -/
def nameBody (s : DrmNameState) : Bytes :=
  match s.unique with
  | some u => s.driverName ++ " ".data ++ s.pciName ++ " ".data ++ u ++ "\n".data
  | none => s.driverName ++ " ".data ++ s.pciName ++ "\n".data

/-- drm_name_info (lines 171-199): limit short circuit, body generation and
the shared slice arithmetic.  Modelled from the spec: the DRM_PROC_PRINT
macro used to build the body is declared in a header outside this file; per
the spec, for this generator overflow is only checked at the read-slice
stage, so the macro is a plain formatted append. -/
def drm_name_info (limit : Nat) (s : DrmNameState) (offset request : Nat) : ReadResult :=
  proc_read limit (nameBody s) offset request

/-- One memory map as read by drm__vm_info: offset, size, type code, flags
and mtrr index. -/
structure DrmMap where
  mapOffset : Nat
  mapSize : Nat
  mapType : Int
  mapFlags : Nat
  mtrr : Int
deriving DecidableEq

/-- One drm_map_list node: the (possibly null) map pointer and the
user-facing token. -/
structure DrmMapNode where
  map : Option DrmMap
  user_token : Nat
deriving DecidableEq

/-- The six known map type tags of drm__vm_info line 226. -/
def vmTypes : List Bytes :=
  ["FB".data, "REG".data, "SHM".data, "AGP".data, "SG".data, "PCI".data]

/-- Type tag resolution of drm__vm_info lines 245-248: out-of-range codes
render as "??". -/
def vmTypeTag (t : Int) : Bytes :=
  if t < 0 ∨ t > 5 then "??".data else (vmTypes.getD t.toNat "??".data)

/-- One table row of drm__vm_info lines 249-259:
"%4d 0x%08lx 0x%08lx %4.4s  0x%02x 0x%08lx " then "none\n" or "%4d\n". -/
def vmLine (i : Nat) (node : DrmMapNode) (m : DrmMap) : Bytes :=
  padLeft 4 (natDec i) ++ " 0x".data ++ padZero 8 (natHex m.mapOffset) ++
  " 0x".data ++ padZero 8 (natHex m.mapSize) ++ " ".data ++
  padLeft 4 (vmTypeTag m.mapType) ++ "  0x".data ++ padZero 2 (natHex m.mapFlags) ++
  " 0x".data ++ padZero 8 (natHex node.user_token) ++ " ".data ++
  (if m.mtrr < 0 then "none\n".data else padLeft 4 (intDec m.mtrr) ++ "\n".data)

/-- Header line of drm__vm_info lines 238-239. -/
def vmHeader : Bytes := "slot\t offset\t      size type flags\t address mtrr\n\n".data

/-- Row loop of drm__vm_info lines 240-261: nodes with a null map are
skipped without consuming a slot index. -/
def vmLines : Nat → List DrmMapNode → Bytes
  | _, [] => []
  | i, node :: rest =>
    match node.map with
    | none => vmLines i rest
    | some m => vmLine i node m ++ vmLines (i + 1) rest

/-- Full body regenerated by drm__vm_info on every call.  Modelled from the
spec: DRM_PROC_PRINT (header outside this file) is a plain formatted append
here, overflow for this generator being checked only at the read-slice
stage. -/
def vmBody (nodes : List DrmMapNode) : Bytes :=
  vmHeader ++ vmLines 0 nodes

/-- drm__vm_info (lines 214-267): body generation plus the shared read
tail. -/
def drm__vm_info (limit : Nat) (nodes : List DrmMapNode) (offset request : Nat) : ReadResult :=
  proc_read limit (vmBody nodes) offset request

/-- A GEM object as read by drm_gem_one_name_info: name, size and the two
reference counters. -/
structure DrmGemObject where
  name : Int
  size : Nat
  handlecount : Int
  refcount : Int
deriving DecidableEq

/-- One line of the gem_names listing, format "%6d%9zd%8d%9d\n"
(drm_gem_one_name_info lines 606-610). -/
def gemNameLine (o : DrmGemObject) : Bytes :=
  padLeft 6 (intDec o.name) ++ padLeft 9 (natDec o.size) ++
  padLeft 8 (intDec o.handlecount) ++ padLeft 9 (intDec o.refcount) ++ "\n".data

/-- The struct drm_gem_name_info_data of lines 591-595: accumulated length,
buffer and the early-stop flag. -/
structure NameInfoData where
  len : Nat
  buf : Bytes
  eofFlag : Bool
deriving DecidableEq

/-- drm_gem_one_name_info (lines 597-616): skip when the flag is set,
otherwise append the formatted entry and then set the flag if the
accumulated length now exceeds the limit.  The callback always returns 0
to idr_for_each. -/
def drm_gem_one_name_info (limit : Nat) (o : DrmGemObject) (nid : NameInfoData) :
    NameInfoData × Int :=
  if nid.eofFlag then (nid, 0)
  else
    let line := gemNameLine o
    let len' := nid.len + line.length
    (⟨len', nid.buf ++ line, decide (len' > limit)⟩, 0)

/-- idr_for_each over the object name registry (line 633): the walk visits
every entry in registry order, threading the drm_gem_name_info_data
through drm_gem_one_name_info. -/
def idr_for_each_names (limit : Nat) : List DrmGemObject → NameInfoData → NameInfoData
  | [], nid => nid
  | o :: os, nid => idr_for_each_names limit os (drm_gem_one_name_info limit o nid).1

/-- Header written by drm_gem_name_info line 630. -/
def gemNameHeader : Bytes := "  name     size handles refcount\n".data

/-- Initial drm_gem_name_info_data: header already written, flag clear
(lines 630-632). -/
def gemInitNid : NameInfoData := ⟨gemNameHeader.length, gemNameHeader, false⟩

/-- drm_gem_name_info (lines 618-641): limit short circuit, header, registry
walk, then the shared slice arithmetic on nid.len. -/
def drm_gem_name_info (limit : Nat) (objs : List DrmGemObject) (offset request : Nat) :
    ReadResult :=
  if offset > limit then ⟨0, true, []⟩
  else
    let nid := idr_for_each_names limit objs gemInitNid
    if nid.len > request + offset then
      ⟨(request : Int), false, (nid.buf.drop offset).take request⟩
    else
      ⟨(nid.len : Int) - (offset : Int), true, (nid.buf.drop offset).take (nid.len - offset)⟩

/-- The fixed report names registered by drm_proc_init, in registration
order (drm_proc_list, lines 69-82, with the debug-only vma entry disabled
as in the portable core). -/
def drm_proc_names : List String :=
  ["name", "mem", "vm", "clients", "queues", "bufs", "objects", "gem_names", "gem_objects"]

/-- k successive remove_proc_entry calls for the same name: each call
removes one directory entry with that name if present, and is a no-op
otherwise. -/
def removeTimes (nm : String) : Nat → List String → List String
  | 0, reg => reg
  | k + 1, reg => removeTimes nm k (reg.erase nm)

/-- Outcome of drm_proc_init: the C return value, the report entries left
registered under the device directory, and whether the device directory
still exists. -/
structure ProcInitResult where
  ret : Int
  registered : List String
  devRootExists : Bool
deriving DecidableEq

/-- Registration loop of drm_proc_init lines 113-129, with `failAt = some i`
meaning create_proc_entry fails at loop index i (the external proc
filesystem is the only source of failure).  On failure the source runs
`for (j = 0; j < i; j++) remove_proc_entry(drm_proc_list[i].name, ...)` -
note the body removes the name at index i, the entry that failed to
create - then removes the device directory and returns -1. -/
def drm_proc_init_loop (failAt : Option Nat) : Nat → List String → List String → ProcInitResult
  | _, reg, [] => ⟨0, reg, true⟩
  | i, reg, nm :: rest =>
    if failAt = some i then
      ⟨-1, removeTimes nm i reg, false⟩
    else
      drm_proc_init_loop failAt (i + 1) (reg ++ [nm]) rest

/-- drm_proc_init for one device instance, starting from a fresh (empty)
device directory. -/
def drm_proc_init (failAt : Option Nat) : ProcInitResult :=
  drm_proc_init_loop failAt 0 [] drm_proc_names

/-- Chunked reading at offsets 0, k, 2k, ... as described by the paginated
read protocol: keep invoking proc_read until it signals end of report,
concatenating the returned byte slices.  The fuel argument only bounds the
recursion; every theorem below supplies enough of it. -/
def readChunks (limit : Nat) (content : Bytes) (k : Nat) : Nat → Nat → Bytes
  | _, 0 => []
  | o, fuel + 1 =>
    let r := proc_read limit content o k
    if r.eofFlag then r.bytes
    else r.bytes ++ readChunks limit content k (o + k) fuel

/-- One job queue as read by drm__queues_info: flags and the volatile
fields listed in the format call of lines 319-334.  The atomic counters
are signed machine integers. -/
structure DrmQueue where
  flags : Nat
  use_count : Int
  finalization : Int
  block_count : Int
  block_read : Int
  block_write : Int
  read_queue_active : Bool
  write_queue_active : Bool
  flush_queue_active : Bool
  waitlist_count : Nat
deriving DecidableEq

/-- One row of the queues table, format
"%5d/0x%03x %5d %5d %5d/%c%c/%c%c%c %5Zd\n" (lines 320-334).  The queue
value supplied here is the one whose use count was already incremented, so
the printed use count is the incremented reading. -/
def queueLine (i : Nat) (q : DrmQueue) : Bytes :=
  padLeft 5 (natDec i) ++ "/0x".data ++ padZero 3 (natHex q.flags) ++ " ".data ++
  padLeft 5 (intDec q.use_count) ++ " ".data ++ padLeft 5 (intDec q.finalization) ++ " ".data ++
  padLeft 5 (intDec q.block_count) ++ "/".data ++
  [if q.block_read ≠ 0 then 'r' else '-'] ++
  [if q.block_write ≠ 0 then 'w' else '-'] ++ "/".data ++
  [if q.read_queue_active then 'r' else '-'] ++
  [if q.write_queue_active then 'w' else '-'] ++
  [if q.flush_queue_active then 'f' else '-'] ++ " ".data ++
  padLeft 5 (natDec q.waitlist_count) ++ "\n".data

/-- Header of drm__queues_info lines 313-315. -/
def queuesHeader : Bytes :=
  "  ctx/flags   use   fin   blk/rw/rwf  wait    flushed\t   queued      locks\n\n".data

/-- Queue loop of drm__queues_info lines 316-336.  Modelled from the spec:
the DRM_PROC_PRINT_RET macro (declared in a header outside this file)
appends the formatted row and, when the accumulated length exceeds the
per-report limit, first runs its cleanup argument - here the use-count
decrement passed at line 319 - then signals end of report and returns from
the handler early.  Each iteration increments the use count, formats the
row from the incremented queue, decrements again, and either stops
(overflow, third component true) or continues.  The second component is
the queue list as left behind by the walk. -/
def queuesLoop (limit : Nat) : Nat → Nat → List DrmQueue → Bytes × List DrmQueue × Bool
  | _, _, [] => ([], [], false)
  | i, len, q :: qs =>
    let q1 : DrmQueue := { q with use_count := q.use_count + 1 }
    let line := queueLine i q1
    let q2 : DrmQueue := { q1 with use_count := q1.use_count - 1 }
    if len + line.length > limit then
      (line, q2 :: qs, true)
    else
      let r := queuesLoop limit (i + 1) (len + line.length) qs
      (line ++ r.1, q2 :: r.2.1, r.2.2)

/-- drm__queues_info (lines 296-342): limit short circuit, header, queue
loop (with its possible early return on overflow, which hands back
`len - offset` with the eof flag set), otherwise the shared read tail.
Returns the read result together with the queue list after the call. -/
def drm__queues_info (limit : Nat) (qs : List DrmQueue) (offset request : Nat) :
    ReadResult × List DrmQueue :=
  if offset > limit then (⟨0, true, []⟩, qs)
  else
    let r := queuesLoop limit 0 queuesHeader.length qs
    let content := queuesHeader ++ r.1
    if r.2.2 then
      (⟨(content.length : Int) - (offset : Int), true,
        (content.drop offset).take (content.length - offset)⟩, r.2.1)
    else if content.length > request + offset then
      (⟨(request : Int), false, (content.drop offset).take request⟩, r.2.1)
    else
      (⟨(content.length : Int) - (offset : Int), true,
        (content.drop offset).take (content.length - offset)⟩, r.2.1)

/-- One allocation class of the buffer pool (dma->bufs[i]). -/
structure DrmBufEntry where
  buf_size : Nat
  buf_count : Nat
  freelist_count : Int
  seg_count : Nat
  page_order : Nat

/-- The DMA state read by drm__bufs_info: the per-order allocation classes
and the flat buffer list (each buffer contributing its pool-list index). -/
structure DrmDeviceDma where
  bufs : Nat → DrmBufEntry
  buflist : List Int

/-- One row of the buffer-pool table, format "%2d %8d %5d %5d %5d %5d %5ld\n"
(lines 391-402), taking the already-computed field values as arguments in
the order of the format call. -/
def bufRowLine (i size count : Nat) (free : Int) (segs pages kB : Nat) : Bytes :=
  padLeft 2 (natDec i) ++ " ".data ++ padLeft 8 (natDec size) ++ " ".data ++
  padLeft 5 (natDec count) ++ " ".data ++ padLeft 5 (intDec free) ++ " ".data ++
  padLeft 5 (natDec segs) ++ " ".data ++ padLeft 5 (natDec pages) ++ " ".data ++
  padLeft 5 (natDec kB) ++ "\n".data

/-- Row loop of drm__bufs_info lines 389-403: one row per allocation order
with a nonzero buffer count, with the pages and kilobyte columns computed
as in the source, `seg_count * (1 << page_order)` and
`(seg_count * (1 << page_order)) * PAGE_SIZE / 1024`. -/
def bufsRowsPart (ps maxOrder : Nat) (bufs : Nat → DrmBufEntry) : Bytes :=
  ((List.range (maxOrder + 1)).map (fun i =>
    let e := bufs i
    if e.buf_count ≠ 0 then
      bufRowLine i e.buf_size e.buf_count e.freelist_count e.seg_count
        (e.seg_count * (1 <<< e.page_order))
        (e.seg_count * (1 <<< e.page_order) * ps / 1024)
    else [])).flatten

/-- Claim-side description of the buffer-pool table rows, following the
spec's words: every order with zero buffers contributes no row; a nonzero
order contributes one row whose pages column is
segment_count x 2^page_order and whose kilobytes column is
segment_count x 2^page_order x page_size / 1024 exactly. -/
def bufsRowsSpec (ps maxOrder : Nat) (bufs : Nat → DrmBufEntry) : Bytes :=
  ((List.range (maxOrder + 1)).filterMap (fun i =>
    let e := bufs i
    if e.buf_count = 0 then none
    else some (bufRowLine i e.buf_size e.buf_count e.freelist_count e.seg_count
      (e.seg_count * 2 ^ e.page_order)
      (e.seg_count * 2 ^ e.page_order * ps / 1024)))).flatten

/-- Header of drm__bufs_info line 388. -/
def bufsHeader : Bytes := " o     size count  free\t segs pages    kB\n\n".data

/-- Flat buffer listing of drm__bufs_info lines 405-409: one " %d" per
buffer, with a newline inserted before every 32nd entry after the first. -/
def buflistPart (l : List Int) : Bytes :=
  (l.enum.map (fun p =>
    (if p.1 ≠ 0 ∧ p.1 % 32 = 0 then "\n".data else []) ++ " ".data ++ intDec p.2)).flatten

/-- Full body regenerated by drm__bufs_info when the DMA structure is
present (lines 388-410).  Modelled from the spec: DRM_PROC_PRINT (header
outside this file) is a plain formatted append here. -/
def bufsBody (ps maxOrder : Nat) (d : DrmDeviceDma) : Bytes :=
  bufsHeader ++ bufsRowsPart ps maxOrder d.bufs ++ "\n".data ++
  buflistPart d.buflist ++ "\n".data

/-- drm__bufs_info (lines 371-416): when dev->dma is null, or the offset
exceeds the limit, set eof and return 0 before emitting anything;
otherwise build the body and run the shared read tail. -/
def drm__bufs_info (limit ps maxOrder : Nat) (dma : Option DrmDeviceDma)
    (offset request : Nat) : ReadResult :=
  match dma with
  | none => ⟨0, true, []⟩
  | some d => proc_read limit (bufsBody ps maxOrder d) offset request

/-- Pages rendering of the used-object-memory line (drm__objects_info
lines 489-490). -/
def usedObjPagesText (v : Nat) : Bytes :=
  "Used object memory is ".data ++ (natDec v ++ " pages.\n".data)

/-- Bytes rendering of the used-object-memory line (lines 492-493). -/
def usedObjBytesText (v : Nat) : Bytes :=
  "Used object memory is ".data ++ (natDec v ++ " bytes.\n".data)

/-- Pages rendering of the used-emergency-memory line (lines 496-497). -/
def usedEmerPagesText (v : Nat) : Bytes :=
  "Used emergency memory is ".data ++ (natDec v ++ " pages.\n".data)

/-- Bytes rendering of the used-emergency-memory line (lines 499-500, note
the double newline in this branch). -/
def usedEmerBytesText (v : Nat) : Bytes :=
  "Used emergency memory is ".data ++ (natDec v ++ " bytes.\n\n".data)

/-- Used-object-memory line of drm__objects_info lines 488-494: pages when
used_mem > 16*PAGE_SIZE, bytes otherwise, with PAGE_SIZE = 2^shift and the
page count computed as used_mem >> shift. -/
def usedObjectMemoryLine (shift used_mem : Nat) : Bytes :=
  if used_mem > 16 * 2 ^ shift then usedObjPagesText (used_mem >>> shift)
  else usedObjBytesText used_mem

/-- Used-emergency-memory line of drm__objects_info lines 495-501, same
threshold rule applied to used_emer. -/
def usedEmergencyMemoryLine (shift used_emer : Nat) : Bytes :=
  if used_emer > 16 * 2 ^ shift then usedEmerPagesText (used_emer >>> shift)
  else usedEmerBytesText used_emer

/-- Concrete device identity used in the counterexample for claim C2. -/
def c2state : DrmNameState := ⟨"i915".data, "0000:00:02.0".data, none⟩

/-- Concrete report body of length 8 used in the counterexample for
claim C3. -/
def c3content : Bytes := "abcdefgh".data

/-- Concrete registry (125 identical small objects, each contributing a
33-byte row) used in the counterexample for claim C5. -/
def c5objs : List DrmGemObject := List.replicate 125 ⟨1, 1, 1, 1⟩

/-- Concrete mapping list (one ordinary frame-buffer mapping) used in the
counterexample for claim C6. -/
def c6nodes : List DrmMapNode := [⟨some ⟨0, 0, 0, 0, -1⟩, 0⟩]

/-- Two lists with unequal final segments are unequal after prepending
anything: witnessed by comparing the first n characters of the reversals. -/
theorem append_ne_of_ne_revtake (n : Nat) (a b t₁ t₂ : Bytes)
    (h₁ : n ≤ t₁.length) (h₂ : n ≤ t₂.length)
    (hne : t₁.reverse.take n ≠ t₂.reverse.take n) : a ++ t₁ ≠ b ++ t₂ := by
  intro h
  apply hne
  have h' := congrArg (fun l => (List.reverse l).take n) h
  simp only [List.reverse_append] at h'
  rw [List.take_append_eq_append_take, List.take_append_eq_append_take] at h'
  have e₁ : n - t₁.reverse.length = 0 := by simp; omega
  have e₂ : n - t₂.reverse.length = 0 := by simp; omega
  rw [e₁, e₂, List.take_zero, List.take_zero, List.append_nil, List.append_nil] at h'
  exact h'

/-- The queue loop hands every queue back with its use count restored: the
increment before the volatile reads and the decrement after (the cleanup
argument of the macro on the overflow path, the trailing decrement on the
normal path) cancel for every queue, visited or not. -/
theorem queuesLoop_restores (limit : Nat) :
    ∀ (qs : List DrmQueue) (i len : Nat), (queuesLoop limit i len qs).2.1 = qs := by
  intro qs
  induction qs with
  | nil => intro i len; rfl
  | cons q qs ih =>
    intro i len
    have hq : ({ q with use_count := q.use_count + 1 - 1 } : DrmQueue) = q := by
      cases q
      simp [Int.add_sub_cancel]
    simp only [queuesLoop]
    split
    · simp only []
      exact congrArg (fun x => x :: qs) hq
    · simp only [ih]
      exact congrArg (fun x => x :: qs) hq

/-- C1 (code_bug evaluation): when creation of the report entry at loop
index i fails, drm_proc_init removes drm_proc_list[i].name - the entry
that was never created - i times instead of removing the i entries
registered so far, so those entries stay registered.  Failing at the
second entry ("mem") leaves "name" registered; failing at the third
leaves "name" and "mem"; a run with no failure registers everything. -/
theorem c1_init_rollback_bug :
    drm_proc_init (some 1) = ⟨-1, ["name"], false⟩ ∧
    (drm_proc_init (some 1)).registered ≠ [] ∧
    drm_proc_init (some 2) = ⟨-1, ["name", "mem"], false⟩ ∧
    drm_proc_init none = ⟨0, drm_proc_names, true⟩ := by decide

/-- C2 (counterexample): with a concrete identity whose report body has 18
bytes, a read at offset 20 (past the body, within the limit 100) signals
end of report but returns the count -2, not zero bytes. -/
theorem c2_offset_past_end_counterexample :
    (nameBody c2state).length ≤ 20 ∧ (20 : Nat) ≤ 100 ∧
    (drm_name_info 100 c2state 20 10).eofFlag = true ∧
    (drm_name_info 100 c2state 20 10).count = -2 ∧ (-2 : Int) ≠ 0 := by decide

/-- C2 (amended): for any offset at or past the end of the regenerated
body but within the per-report limit, the read signals end of report and
returns the signed count totalLength - offset with no payload bytes - zero
exactly when the offset equals totalLength, negative beyond it.  Stated
for the shared read tail and for drm_gem_name_info, which inlines the same
arithmetic on nid.len. -/
theorem c2_offset_past_end_amended :
    (∀ (limit : Nat) (content : Bytes) (offset request : Nat),
      offset ≤ limit → content.length ≤ offset →
      proc_read limit content offset request =
        ⟨(content.length : Int) - (offset : Int), true, []⟩) ∧
    (∀ (limit : Nat) (objs : List DrmGemObject) (offset request : Nat),
      offset ≤ limit → (idr_for_each_names limit objs gemInitNid).len ≤ offset →
      drm_gem_name_info limit objs offset request =
        ⟨((idr_for_each_names limit objs gemInitNid).len : Int) - (offset : Int), true, []⟩) := by
  constructor
  · intro limit content offset request h1 h2
    simp only [proc_read]
    rw [if_neg (Nat.not_lt.mpr h1), if_neg (by omega)]
    rw [List.drop_eq_nil_of_le h2, List.take_nil]
  · intro limit objs offset request h1 h2
    simp only [drm_gem_name_info]
    rw [if_neg (Nat.not_lt.mpr h1), if_neg (by omega)]
    rw [show (idr_for_each_names limit objs gemInitNid).len - offset = 0 by omega,
      List.take_zero]

/-- C2 (witness): the amended statement applied at concrete inputs. -/
theorem c2_offset_past_end_witness :
    proc_read 50 "hi".data 10 5 = ⟨("hi".data.length : Int) - (10 : Int), true, []⟩ ∧
    drm_gem_name_info 50 [] 40 5 =
      ⟨((idr_for_each_names 50 [] gemInitNid).len : Int) - (40 : Int), true, []⟩ :=
  ⟨c2_offset_past_end_amended.1 50 "hi".data 10 5 (by decide) (by decide),
   c2_offset_past_end_amended.2 50 [] 40 5 (by decide) (by decide)⟩

/-- Flattening a map whose function agrees, entry by entry, with an
optional row producer (empty output standing for a dropped row) equals
flattening the corresponding filterMap. -/
theorem flatten_map_filterMap {α : Type} (F : α → Bytes) (G : α → Option Bytes)
    (hFG : ∀ i, F i = (G i).getD []) :
    ∀ l : List α, (l.map F).flatten = (l.filterMap G).flatten := by
  intro l
  induction l with
  | nil => rfl
  | cons i l ih =>
    rw [List.map_cons, List.flatten_cons, List.filterMap_cons]
    cases hG : G i with
    | none =>
      rw [hFG i, hG]
      simpa using ih
    | some r =>
      rw [List.flatten_cons, hFG i, hG]
      simpa using ih

/-- C8: the buffer-pool table rows equal their specification: allocation
orders with zero buffers contribute no row, and a nonzero order
contributes one row whose pages column is segment_count x 2^page_order and
whose kilobytes column is segment_count x 2^page_order x page_size / 1024
exactly (integer division, evaluated left to right as in the source). -/
theorem c8_bufs_table (ps maxOrder : Nat) (bufs : Nat → DrmBufEntry) :
    bufsRowsPart ps maxOrder bufs = bufsRowsSpec ps maxOrder bufs := by
  unfold bufsRowsPart bufsRowsSpec
  refine flatten_map_filterMap _ _ (fun i => ?_) _
  by_cases h : (bufs i).buf_count = 0
  · simp [h]
  · simp [h, Nat.one_shiftLeft]

/-- C9: each queue enumerated by the jobs-queue generator has its use
count incremented before its volatile fields are read and decremented
afterwards, on the normal path and on the early-return overflow path
alike, so the queue list is handed back unchanged whenever the generator
returns. -/
theorem c9_queue_use_count_balance (limit : Nat) (qs : List DrmQueue)
    (offset request : Nat) :
    (drm__queues_info limit qs offset request).2 = qs := by
  simp only [drm__queues_info]
  split
  · rfl
  · split
    · exact queuesLoop_restores limit qs 0 queuesHeader.length
    · split
      · exact queuesLoop_restores limit qs 0 queuesHeader.length
      · exact queuesLoop_restores limit qs 0 queuesHeader.length

/-- A proc_read step below the limit with more content remaining hands
back exactly the requested slice and signals more remains. -/
theorem proc_read_more (limit : Nat) (content : Bytes) (o k : Nat)
    (ho : o ≤ limit) (hbig : content.length > k + o) :
    proc_read limit content o k = ⟨(k : Int), false, (content.drop o).take k⟩ := by
  simp only [proc_read]
  rw [if_neg (Nat.not_lt.mpr ho), if_pos hbig]

/-- A proc_read step below the limit at or past the final chunk hands back
the rest of the content and signals end of report. -/
theorem proc_read_last (limit : Nat) (content : Bytes) (o k : Nat)
    (ho : o ≤ limit) (hsmall : ¬content.length > k + o) :
    proc_read limit content o k =
      ⟨(content.length : Int) - (o : Int), true,
        (content.drop o).take (content.length - o)⟩ := by
  simp only [proc_read]
  rw [if_neg (Nat.not_lt.mpr ho), if_neg hsmall]

/-- Chunked reading from any reachable offset recovers the rest of the
content, provided the body does not extend more than one byte past the
per-report limit. -/
theorem readChunks_eq_drop (limit k : Nat) (content : Bytes) (hk : 1 ≤ k)
    (hlen : content.length ≤ limit + 1) :
    ∀ (fuel o : Nat), o ≤ limit → content.length - o < fuel →
      readChunks limit content k o fuel = content.drop o := by
  intro fuel
  induction fuel with
  | zero => intro o _ h; exact absurd h (Nat.not_lt_zero _)
  | succ fuel ih =>
    intro o ho hfo
    by_cases hbig : content.length > k + o
    · have hrec := ih (o + k) (by omega) (by omega)
      simp only [readChunks, proc_read_more limit content o k ho hbig, hrec]
      simp only [Bool.false_eq_true, if_false]
      rw [← List.drop_drop, List.take_append_drop]
    · have htake : (content.drop o).take (content.length - o) = content.drop o := by
        rw [← List.length_drop, List.take_length]
      simp only [readChunks, proc_read_last limit content o k ho hbig, htake]
      simp

/-- C3 (counterexample): with an 8-byte body, limit 5 and chunk size 1,
the chunked reads stop at the limit short circuit after 6 bytes, while a
single read of the full length at offset 0 returns all 8 bytes. -/
theorem c3_chunked_concat_counterexample :
    readChunks 5 c3content 1 0 20 ≠ (proc_read 5 c3content 0 c3content.length).bytes := by
  decide

/-- C3 (amended): for every chunk size k at least 1, reading at offsets
0, k, 2k, ... until end of report and concatenating equals a single read
of the full length at offset 0, provided the regenerated body does not
extend more than one byte past the per-report limit (otherwise the offset
short circuit truncates the chunked reading, as the counterexample
shows). -/
theorem c3_chunked_concat_amended (limit k fuel : Nat) (content : Bytes)
    (hk : 1 ≤ k) (hlen : content.length ≤ limit + 1) (hfuel : content.length < fuel) :
    readChunks limit content k 0 fuel = (proc_read limit content 0 content.length).bytes ∧
    (proc_read limit content 0 content.length).bytes = content := by
  have hfull : (proc_read limit content 0 content.length).bytes = content := by
    simp only [proc_read]
    rw [if_neg (by omega), if_neg (by omega)]
    simp
  have hchunk : readChunks limit content k 0 fuel = content := by
    rw [readChunks_eq_drop limit k content hk hlen fuel 0 (by omega) (by omega)]
    exact List.drop_zero content
  exact ⟨hchunk.trans hfull.symm, hfull⟩

/-- C3 (witness): the amended statement applied at chunk size 3 on a
5-byte body under limit 10. -/
theorem c3_chunked_concat_witness :
    readChunks 10 "hello".data 3 0 6 = (proc_read 10 "hello".data 0 "hello".data.length).bytes ∧
    (proc_read 10 "hello".data 0 "hello".data.length).bytes = "hello".data :=
  c3_chunked_concat_amended 10 3 6 "hello".data (by decide) (by decide) (by decide)

/-- After any sequence of registry entries the gem-names generation state
still satisfies: the early-stop flag is set, or the accumulated length is
within the limit. -/
theorem idr_names_invariant (limit : Nat) :
    ∀ (objs : List DrmGemObject) (s : NameInfoData),
      (s.eofFlag = true ∨ s.len ≤ limit) →
      ((idr_for_each_names limit objs s).eofFlag = true ∨
        (idr_for_each_names limit objs s).len ≤ limit) := by
  intro objs
  induction objs with
  | nil => intro s hs; exact hs
  | cons o os ih =>
    intro s hs
    simp only [idr_for_each_names]
    apply ih
    by_cases he : s.eofFlag
    · simp only [drm_gem_one_name_info, if_pos he]
      exact hs
    · simp only [drm_gem_one_name_info, if_neg he]
      by_cases hl : s.len + (gemNameLine o).length > limit
      · left
        simpa using hl
      · right
        simpa using Nat.le_of_not_lt hl

/-- Once the early-stop flag is set the registry walk leaves the
generation state untouched. -/
theorem idr_names_fixed (limit : Nat) :
    ∀ (objs : List DrmGemObject) (s : NameInfoData),
      s.eofFlag = true → idr_for_each_names limit objs s = s := by
  intro objs
  induction objs with
  | nil => intro s _; rfl
  | cons o os ih =>
    intro s hs
    simp only [idr_for_each_names, drm_gem_one_name_info, if_pos hs]
    exact ih s hs

/-- The registry walk only ever appends to the output buffer: the initial
buffer is a prefix of the final one. -/
theorem idr_names_extends (limit : Nat) :
    ∀ (objs : List DrmGemObject) (s : NameInfoData),
      ∃ t, s.buf ++ t = (idr_for_each_names limit objs s).buf := by
  intro objs
  induction objs with
  | nil => intro s; exact ⟨[], by simp [idr_for_each_names]⟩
  | cons o os ih =>
    intro s
    simp only [idr_for_each_names]
    obtain ⟨t, ht⟩ := ih (drm_gem_one_name_info limit o s).1
    by_cases he : s.eofFlag
    · have hb : (drm_gem_one_name_info limit o s).1.buf = s.buf := by
        simp [drm_gem_one_name_info, if_pos he]
      exact ⟨t, by rw [← ht, hb]⟩
    · have hb : (drm_gem_one_name_info limit o s).1.buf = s.buf ++ gemNameLine o := by
        simp [drm_gem_one_name_info, if_neg he]
      exact ⟨gemNameLine o ++ t, by rw [← ht, hb, List.append_assoc]⟩

/-- The idr callback always reports success to the iterator. -/
theorem gem_one_returns_zero (limit : Nat) (o : DrmGemObject) (s : NameInfoData) :
    (drm_gem_one_name_info limit o s).2 = 0 := by
  unfold drm_gem_one_name_info
  split <;> rfl

/-- C4: for the named-object listing, whenever the accumulated length
exceeds the limit the early-stop flag is set; once the flag is set the
walk appends nothing further; the walk only extends the already-written
prefix; and the callback returns success for every entry, so the
enumeration always completes without error. -/
theorem c4_gem_overflow_stop (limit : Nat) (objs : List DrmGemObject) (s : NameInfoData)
    (hs : s.len > limit → s.eofFlag = true) :
    ((idr_for_each_names limit objs s).len > limit →
      (idr_for_each_names limit objs s).eofFlag = true) ∧
    (s.eofFlag = true → idr_for_each_names limit objs s = s) ∧
    (∃ t, s.buf ++ t = (idr_for_each_names limit objs s).buf) ∧
    (∀ o2, (drm_gem_one_name_info limit o2 s).2 = 0) := by
  have hs' : s.eofFlag = true ∨ s.len ≤ limit := by
    by_cases h : s.len ≤ limit
    · exact Or.inr h
    · exact Or.inl (hs (by omega))
  have hinv := idr_names_invariant limit objs s hs'
  exact ⟨fun hgt => hinv.resolve_right (by omega), idr_names_fixed limit objs s,
    idr_names_extends limit objs s, fun o2 => gem_one_returns_zero limit o2 s⟩

/-- C4 (witness): a state with the flag already set is left untouched by
the walk. -/
theorem c4_gem_overflow_stop_witness :
    idr_for_each_names 4016 [⟨1, 1, 1, 1⟩] ⟨40, [], true⟩ = ⟨40, [], true⟩ :=
  (c4_gem_overflow_stop 4016 [⟨1, 1, 1, 1⟩] ⟨40, [], true⟩ (fun _ => rfl)).2.1 rfl

set_option maxRecDepth 40000 in
/-- C5 (counterexample): with 125 registry entries of 33 bytes each, the
accumulated length of the gem_names generation reaches 4158, strictly
exceeding the capacity limit 4016 - the entry that crosses the limit is
appended before the flag is checked, and earlier generators never check at
all, so currentLength does exceed capacityLimit. -/
theorem c5_length_invariant_counterexample :
    (idr_for_each_names 4016 c5objs gemInitNid).len > 4016 := by decide

/-- C5 (amended): the accumulated length can exceed the capacity limit
only in states whose overflow flag is set: whenever the flag is clear the
length is within the limit, and once the flag is set no further content is
appended for that invocation. -/
theorem c5_length_invariant_amended (limit : Nat) (objs : List DrmGemObject)
    (s : NameInfoData) (hs : s.eofFlag = true ∨ s.len ≤ limit) :
    ((idr_for_each_names limit objs s).eofFlag = true ∨
      (idr_for_each_names limit objs s).len ≤ limit) ∧
    (s.eofFlag = true → (idr_for_each_names limit objs s).buf = s.buf) :=
  ⟨idr_names_invariant limit objs s hs,
    fun he => congrArg NameInfoData.buf (idr_names_fixed limit objs s he)⟩

/-- C5 (witness): the amended statement applied to the fresh header state
and one small registry entry. -/
theorem c5_length_invariant_witness :
    (idr_for_each_names 4016 [⟨1, 1, 1, 1⟩] gemInitNid).eofFlag = true ∨
    (idr_for_each_names 4016 [⟨1, 1, 1, 1⟩] gemInitNid).len ≤ 4016 :=
  (c5_length_invariant_amended 4016 [⟨1, 1, 1, 1⟩] gemInitNid (Or.inr (by decide))).1

/-- C6 (counterexample): the vm generator regenerates its entire body on
every read call; with a single registered mapping that body is 104 bytes,
so a caller-supplied buffer whose capacity is the 100-byte report limit is
written past during the call. -/
theorem c6_capacity_counterexample : 100 < (vmBody c6nodes).length := by decide

/-- C6 (amended): what the code does guarantee: the slice handed back by
a read never exceeds the requested length, and the named-object enumerator
overruns the limit by at most one entry line (every append starts at or
below the limit, so with every line at most B bytes the accumulated length
stays within limit + B); the full regenerated body of the other
generators is unbounded and only truncated at the read-slice stage. -/
theorem c6_capacity_amended :
    (∀ (limit : Nat) (content : Bytes) (offset request : Nat),
      (proc_read limit content offset request).bytes.length ≤ request) ∧
    (∀ (limit B : Nat) (objs : List DrmGemObject) (s : NameInfoData),
      (∀ o ∈ objs, (gemNameLine o).length ≤ B) →
      (s.eofFlag = true ∨ s.len ≤ limit) →
      (idr_for_each_names limit objs s).len ≤ max s.len (limit + B)) := by
  constructor
  · intro limit content offset request
    unfold proc_read
    split
    · simp
    · split
      · simp [List.length_take]
      · rename_i h1 h2
        simp only [List.length_take, List.length_drop]
        omega
  · intro limit B objs
    induction objs with
    | nil =>
      intro s hB hs
      exact Nat.le_max_left s.len (limit + B)
    | cons o os ih =>
      intro s hB hs
      simp only [idr_for_each_names]
      by_cases he : s.eofFlag
      · have hstep : (drm_gem_one_name_info limit o s).1 = s := by
          simp [drm_gem_one_name_info, if_pos he]
        rw [hstep]
        exact ih s (fun o2 ho2 => hB o2 (List.mem_cons_of_mem _ ho2)) hs
      · have hsl : s.len ≤ limit := hs.resolve_left he
        have hline : (gemNameLine o).length ≤ B := hB o (List.mem_cons_self _ _)
        have hstep1 : (drm_gem_one_name_info limit o s).1.len =
            s.len + (gemNameLine o).length := by
          simp [drm_gem_one_name_info, if_neg he]
        have hinv' : (drm_gem_one_name_info limit o s).1.eofFlag = true ∨
            (drm_gem_one_name_info limit o s).1.len ≤ limit := by
          simp only [drm_gem_one_name_info, if_neg he]
          by_cases hl : s.len + (gemNameLine o).length > limit
          · left
            simpa using hl
          · right
            simpa using Nat.le_of_not_lt hl
        have hrec := ih (drm_gem_one_name_info limit o s).1
          (fun o2 ho2 => hB o2 (List.mem_cons_of_mem _ ho2)) hinv'
        have hb : (drm_gem_one_name_info limit o s).1.len ≤ limit + B := by
          rw [hstep1]; omega
        omega

/-- C6 (witness): the amended statement applied to a 3-byte body read and
a one-entry registry walk. -/
theorem c6_capacity_witness :
    (proc_read 10 "abc".data 1 2).bytes.length ≤ 2 ∧
    (idr_for_each_names 40 [⟨1, 1, 1, 1⟩] gemInitNid).len ≤ max gemInitNid.len (40 + 33) :=
  ⟨c6_capacity_amended.1 10 "abc".data 1 2,
   c6_capacity_amended.2 40 33 [⟨1, 1, 1, 1⟩] gemInitNid (by decide) (Or.inr (by decide))⟩

/-- C7: the used-memory line renders a page count exactly when the value
strictly exceeds 16 pages worth of bytes (16 * 2^shift with page size
2^shift) and renders the raw byte value otherwise; a value of 17 pages
renders as 17 pages, a value of 5 bytes renders as 5 bytes, and the same
rule holds independently for the emergency used-memory line. -/
theorem c7_used_memory_rendering (shift u e : Nat) :
    (usedObjectMemoryLine shift u = usedObjPagesText (u >>> shift) ↔ 16 * 2 ^ shift < u) ∧
    (usedEmergencyMemoryLine shift e = usedEmerPagesText (e >>> shift) ↔ 16 * 2 ^ shift < e) ∧
    usedObjectMemoryLine shift (17 * 2 ^ shift) = usedObjPagesText 17 ∧
    usedObjectMemoryLine shift 5 = usedObjBytesText 5 ∧
    usedEmergencyMemoryLine shift (17 * 2 ^ shift) = usedEmerPagesText 17 ∧
    usedEmergencyMemoryLine shift 5 = usedEmerBytesText 5 := by
  have hpow : 0 < 2 ^ shift := pow_pos (by norm_num) shift
  have h17 : 16 * 2 ^ shift < 17 * 2 ^ shift := by omega
  have h5 : ¬16 * 2 ^ shift < 5 := by omega
  have hshift17 : (17 * 2 ^ shift) >>> shift = 17 := by
    rw [Nat.shiftRight_eq_div_pow]
    exact Nat.mul_div_cancel 17 hpow
  refine ⟨⟨?_, ?_⟩, ⟨?_, ?_⟩, ?_, ?_, ?_, ?_⟩
  · intro hEq
    by_contra hnot
    rw [usedObjectMemoryLine, if_neg hnot] at hEq
    unfold usedObjBytesText usedObjPagesText at hEq
    exact append_ne_of_ne_revtake 8 (natDec u) (natDec (u >>> shift))
      " bytes.\n".data " pages.\n".data (by decide) (by decide) (by decide)
      (List.append_cancel_left hEq)
  · intro h
    rw [usedObjectMemoryLine, if_pos h]
  · intro hEq
    by_contra hnot
    rw [usedEmergencyMemoryLine, if_neg hnot] at hEq
    unfold usedEmerBytesText usedEmerPagesText at hEq
    exact append_ne_of_ne_revtake 8 (natDec e) (natDec (e >>> shift))
      " bytes.\n\n".data " pages.\n".data (by decide) (by decide) (by decide)
      (List.append_cancel_left hEq)
  · intro h
    rw [usedEmergencyMemoryLine, if_pos h]
  · rw [usedObjectMemoryLine, if_pos h17, hshift17]
  · rw [usedObjectMemoryLine, if_neg h5]
  · rw [usedEmergencyMemoryLine, if_pos h17, hshift17]
  · rw [usedEmergencyMemoryLine, if_neg h5]

/-- C10: with the DMA structure absent, every read of the bufs report
returns zero bytes with end of report set, emitting nothing at all - while
an empty-but-present buffer pool still produces the header line (and the
two separating newlines). -/
theorem c10_bufs_null_dma :
    (∀ (limit ps maxOrder offset request : Nat),
      drm__bufs_info limit ps maxOrder none offset request = ⟨0, true, []⟩) ∧
    (drm__bufs_info 4016 4096 22 (some ⟨fun _ => ⟨0, 0, 0, 0, 0⟩, []⟩) 0 4096).bytes =
      bufsHeader ++ "\n".data ++ "\n".data ∧
    bufsHeader ≠ [] := by
  refine ⟨fun limit ps maxOrder offset request => rfl, ?_, by decide⟩
  decide

end DrmProc
